import Mathlib

set_option maxHeartbeats 1000000

/-!
Formal model of the pipeline core of `nianalysis` (file
`nianalysis/pipeline.py`), covering the incremental selector
(`Pipeline._sessions_to_process`), the iteration-space builder
(`Pipeline._subject_and_session_iterators`), the prerequisite-resolution
loop of `Pipeline.connect_to_archive`, constructor validation and option
merging (`Pipeline.__init__`), and the connection bookkeeping
(`connect_input`, `connect_output`, `assert_connected`).
-/

namespace NIAnalysis

/-- Aggregation level of a dataset, as used by `Pipeline._sessions_to_process`
and the output grouping in `Pipeline.__init__`. -/
inductive Multiplicity where
  | per_session
  | per_subject
  | per_visit
  | per_project
deriving DecidableEq, Repr

/-- An archive session: `subject_id` is `session.subject.id`, `id` is the
visit id (`session.id` in the source) and `dataset_names` the set of archived
dataset names present for the session.  The archive classes themselves are not
part of the analysed sources; the fields are exactly those `pipeline.py`
reads (`s.id`, `s.subject.id`, `s.dataset_names`). -/
structure Session where
  subject_id : String
  id : String
  dataset_names : List String
deriving DecidableEq, Repr

/-- An archive subject, with its sessions and its subject-level archived
dataset-name set (`sub.sessions`, `sub.dataset_names` in the source). -/
structure Subject where
  id : String
  sessions : List Session
  dataset_names : List String
deriving DecidableEq, Repr

/-- A project snapshot: subjects plus the project-level archived
dataset-name set (`project.subjects`, `project.dataset_names`). -/
structure Project where
  subjects : List Subject
  dataset_names : List String
deriving DecidableEq, Repr

/-- The part of a dataset spec consumed by `_sessions_to_process`:
its suffixed archive name (`dataset.prefixed_name`) and its
multiplicity (`dataset.multiplicity`). -/
structure Dataset where
  prefixed_name : String
  multiplicity : Multiplicity
deriving DecidableEq, Repr

/-- `all_sessions = list(chain(*[s.sessions for s in all_subjects]))`. -/
def Project.all_sessions (p : Project) : List Session :=
  p.subjects.flatMap (fun s => s.sessions)

/-- The inner `filter_sessions` closure of `_sessions_to_process`:
keep only sessions whose visit id is in `visit_ids`, or everything when
`visit_ids` is `None`. -/
def filter_sessions (visit_ids : Option (List String)) (sessions : List Session) :
    List Session :=
  match visit_ids with
  | none => sessions
  | some vs => sessions.filter (fun s => decide (s.id ∈ vs))

/-- Set-style update (`sessions_to_process.update(...)`): append each new
session that is not already present. -/
def unionAdd (acc new : List Session) : List Session :=
  new.foldl (fun a s => if s ∈ a then a else a ++ [s]) acc

/-- The `for output in self.outputs` loop of `_sessions_to_process`,
with `acc` playing the role of the `sessions_to_process` set.  A missing
`per_project` output returns `all_sessions` immediately; `per_subject` and
`per_visit` outputs both collect the sessions of subjects whose
subject-level `dataset_names` lack the name (the source lumps the two
multiplicities into one branch); `per_session` outputs collect the
individual sessions lacking the name. -/
def sessions_to_process_loop (project : Project) (visit_ids : Option (List String)) :
    List Dataset → List Session → List Session
  | [], acc => acc
  | d :: rest, acc =>
    if d.multiplicity = .per_project then
      if d.prefixed_name ∈ project.dataset_names then
        sessions_to_process_loop project visit_ids rest acc
      else
        project.all_sessions
    else if d.multiplicity = .per_subject ∨ d.multiplicity = .per_visit then
      sessions_to_process_loop project visit_ids rest
        (unionAdd acc
          ((project.subjects.filter
              (fun sub => decide (d.prefixed_name ∉ sub.dataset_names))).flatMap
            (fun sub => filter_sessions visit_ids sub.sessions)))
    else
      sessions_to_process_loop project visit_ids rest
        (unionAdd acc
          (filter_sessions visit_ids
            (project.all_sessions.filter
              (fun s => decide (d.prefixed_name ∉ s.dataset_names)))))

/-- `Pipeline._sessions_to_process(project, visit_ids, reprocess)`:
with a truthy `reprocess` every session is returned; otherwise the outputs
are diffed against the archive snapshot. -/
def sessions_to_process (outputs : List Dataset) (project : Project)
    (visit_ids : Option (List String)) (reprocess : Bool) : List Session :=
  if reprocess then project.all_sessions
  else sessions_to_process_loop project visit_ids outputs []

/-! ### Iteration-space builder (`_subject_and_session_iterators`) -/

/-- `subject_ids_to_process = set(s.id for s in subjects_to_process)`. -/
def subject_ids_to_process (sessions : List Session) : List String :=
  (sessions.map (fun s => s.subject_id)).dedup

/-- The keys of the `session_subjects` dict: the visit ids occurring in the
work set. -/
def visit_ids_of (sessions : List Session) : List String :=
  (sessions.map (fun s => s.id)).dedup

/-- `session_subjects[v]`: the set of subject ids having a session with
visit id `v` in the work set. -/
def session_subjects (sessions : List Session) (v : String) : List String :=
  ((sessions.filter (fun s => decide (s.id = v))).map (fun s => s.subject_id)).dedup

/-- `subject_sessions[sid]`: the list of visit ids of the sessions of
subject `sid` in the work set. -/
def subject_sessions (sessions : List Session) (sid : String) : List String :=
  (sessions.filter (fun s => decide (s.subject_id = sid))).map (fun s => s.id)

/-- Boolean set equality of two id lists (the `ss == subject_ids_to_process`
comparison between Python sets). -/
def eqSet (xs ys : List String) : Bool :=
  decide (∀ x ∈ xs, x ∈ ys) && decide (∀ y ∈ ys, y ∈ xs)

/-- The visit-axis binding produced by `_subject_and_session_iterators`:
either a flat visit-id list shared by all subjects
(`sessions.iterables = ('visit_id', session_subjects.keys())`), or an
explicit subject-to-visit-list mapping sourced from the subject axis
(`sessions.itersource = ...; sessions.iterables = ('visit_id',
subject_sessions)`). -/
inductive VisitIterables where
  | flat (visit_ids : List String)
  | sourced (subject_visits : List (String × List String))
deriving DecidableEq, Repr

/-- `Pipeline._subject_and_session_iterators`, restricted to the visit-axis
binding decision (the subject axis is always the flat list of subject ids of
the work set). -/
def subject_and_session_iterators (sessions : List Session) : VisitIterables :=
  if (visit_ids_of sessions).all
      (fun v => eqSet (session_subjects sessions v) (subject_ids_to_process sessions)) then
    .flat (visit_ids_of sessions)
  else
    .sourced ((subject_ids_to_process sessions).map
      (fun sid => (sid, subject_sessions sessions sid)))

/-! ### Prerequisite resolution (`connect_to_archive`, lines 256-357)

The graph-building parts of `connect_to_archive` (nipype node creation,
source and sink wiring) are kept abstract; what is modelled is the
observable bookkeeping the claims are about: the early return on an empty
work set, the addition of the step workflow
(`complete_workflow.add_nodes([self._workflow])`), the run-scoped
prerequisite cache `connected_prereqs`, the per-step `reports` dependency
list and the returned report node (modelled as a fresh numeric token). -/

/-- The identity fields compared by `Pipeline.__eq__` (`_name`, `_study`,
`_inputs`, `_outputs`, `_options`, `_citations`). -/
structure PipeId where
  name : String
  study : String
  inputs : List String
  outputs : List String
  options : List (String × String)
  citations : List String
deriving DecidableEq, Repr

/-- A pipeline together with the dataset specs of its outputs (as consumed
by `_sessions_to_process`) and its prerequisite pipelines
(`self.prerequisities`). -/
inductive Pline where
  | mk (pid : PipeId) (out_datasets : List Dataset) (prereqs : List Pline)

/-- The identity record of a pipeline. -/
def Pline.pid : Pline → PipeId
  | .mk i _ _ => i

/-- The pipeline name. -/
def Pline.name (p : Pline) : String := p.pid.name

/-- The output dataset specs of a pipeline. -/
def Pline.out_datasets : Pline → List Dataset
  | .mk _ o _ => o

/-- The `reprocess` flag: `False`, `True` or `'all'`. -/
inductive Reproc where
  | no
  | yes
  | all
deriving DecidableEq, Repr

/-- Python truthiness of the `reprocess` flag as tested by
`if reprocess:` in `_sessions_to_process` (both `True` and the non-empty
string `'all'` are truthy). -/
def Reproc.toBool : Reproc → Bool
  | .no => false
  | .yes => true
  | .all => true

/-- The propagation expression
`reprocess if reprocess == 'all' else False` at the recursive
`prereq.connect_to_archive` call (line 341). -/
def propagate_reprocess (r : Reproc) : Reproc :=
  if r = .all then .all else .no

/-- The run-scoped state threaded through one top-level
`connect_to_archive` call: the list of step workflows added to the
complete workflow, the `connected_prereqs` cache (step name to cached
pipeline identity and report token), a counter producing fresh report
tokens, and, per connected step, its collected `reports` dependency
list. -/
structure RunState where
  workflow : List String
  cache : List (String × PipeId × Nat)
  next_token : Nat
  dep_reports : List (String × List Nat)
deriving DecidableEq, Repr

/-- Dictionary lookup in the `connected_prereqs` cache. -/
def cacheLookup (c : List (String × PipeId × Nat)) (k : String) :
    Option (PipeId × Nat) :=
  match c with
  | [] => none
  | (k', v) :: rest => if k' = k then some v else cacheLookup rest k

/-- Dictionary assignment `connected_prereqs[name] = (prereq, report)`. -/
def cacheStore (c : List (String × PipeId × Nat)) (k : String)
    (v : PipeId × Nat) : List (String × PipeId × Nat) :=
  if c.any (fun e => decide (e.1 = k)) then
    c.map (fun e => if e.1 = k then (k, v) else e)
  else c ++ [(k, v)]

/-- The fatal error raised on a prerequisite name clash
(`NiAnalysisError: Name clash between ... non-matching prerequisite
pipelines`). -/
inductive RunError where
  | prereq_name_clash (cached requested : PipeId)
deriving DecidableEq, Repr

mutual

/-- `Pipeline.connect_to_archive`: computes the work set, returns `none`
without touching the state when it is empty, otherwise adds the step
workflow, resolves prerequisites with the cache, and returns a fresh
report token.  `project` and `visit_ids` are the snapshot and filter
passed unchanged to recursive calls. -/
def connect (project : Project) (visit_ids : Option (List String))
    (reprocess : Reproc) : Pline → RunState → Except RunError (Option Nat × RunState)
  | .mk pid outs prereqs, st =>
    let stp := sessions_to_process outs project visit_ids reprocess.toBool
    if stp = [] then .ok (none, st)
    else
      let st1 : RunState := { st with workflow := st.workflow ++ [pid.name] }
      match connect_prereqs project visit_ids reprocess prereqs st1 with
      | .error e => .error e
      | .ok (reports, st2) =>
        let tok := st2.next_token
        .ok (some tok,
          { st2 with
            next_token := tok + 1,
            dep_reports := st2.dep_reports ++ [(pid.name, reports)] })

/-- The `for prereq in self.prerequisities` loop (lines 323-346): a cache
hit checks identity-equality of the cached pipeline against the requested
one and reuses its token; a cache miss recursively connects the
prerequisite with the propagated reprocess flag, stores its token under
its name when one was produced, and omits it otherwise. -/
def connect_prereqs (project : Project) (visit_ids : Option (List String))
    (reprocess : Reproc) : List Pline → RunState → Except RunError (List Nat × RunState)
  | [], st => .ok ([], st)
  | q :: rest, st =>
    match cacheLookup st.cache q.name with
    | some (cached_pid, tok) =>
      if cached_pid ≠ q.pid then .error (.prereq_name_clash cached_pid q.pid)
      else
        match connect_prereqs project visit_ids reprocess rest st with
        | .error e => .error e
        | .ok (more, st') => .ok (tok :: more, st')
    | none =>
      match connect project visit_ids (propagate_reprocess reprocess) q st with
      | .error e => .error e
      | .ok (some tok, st') =>
        let st'' : RunState :=
          { st' with cache := cacheStore st'.cache q.name (q.pid, tok) }
        match connect_prereqs project visit_ids reprocess rest st'' with
        | .error e => .error e
        | .ok (more, st3) => .ok (tok :: more, st3)
      | .ok (none, st') =>
        connect_prereqs project visit_ids reprocess rest st'

end

/-! ### Constructor validation and option merging (`Pipeline.__init__`) -/

/-- The reserved iteration-field names (`Pipeline.iterfields`). -/
def iterfields : List String := ["subject_id", "visit_id"]

/-- First-match association-list lookup, the Python dictionary read. -/
def lookupKey (m : List (String × String)) (k : String) : Option String :=
  match m with
  | [] => none
  | (k', v) :: rest => if k' = k then some v else lookupKey rest k

/-- Dictionary assignment of an existing key: replace the value stored
under `k`. -/
def updateVal (m : List (String × String)) (k : String) (v : String) :
    List (String × String) :=
  m.map (fun e => if e.1 = k then (k, v) else e)

/-- The option-merge loop of `Pipeline.__init__` (lines 116-119): start
from a copy of `default_options` and overwrite the value of each key of
`options` that is already a key of the copy; other keys of `options` are
ignored. -/
def merge_options (default_options options : List (String × String)) :
    List (String × String) :=
  options.foldl
    (fun acc kv =>
      if (acc.map Prod.fst).contains kv.1 then updateVal acc kv.1 kv.2 else acc)
    default_options

/-- The errors `Pipeline.__init__` can raise, in source order: unknown
input names (`_check_spec_names(inputs, ...)`), an input name clashing
with an iterable field, unknown output names, and the duplicate-name
assertions. -/
inductive InitError where
  | unrecognised_inputs
  | iterfield_clash
  | unrecognised_outputs
  | duplicate_inputs
  | duplicate_outputs
deriving DecidableEq, Repr

/-- The pipeline state produced by a successful `Pipeline.__init__`:
declared input and output names, the unconnected-name sets, and the two
option maps. -/
structure PState where
  input_names : List String
  output_names : List String
  unconnected_inputs : List String
  unconnected_outputs : List String
  options : List (String × String)
  default_options : List (String × String)
deriving DecidableEq, Repr

/-- `Pipeline.__init__`, restricted to its validation and bookkeeping:
check the input names against the study spec names, check inputs against
the reserved iteration fields, check the output names, build the
unconnected sets (`set(...)`, modelled as `List.dedup`), run the
duplicate-name assertions, and merge the options. -/
def pipeline_init (spec_names inputs outputs : List String)
    (default_options options : List (String × String)) : Except InitError PState :=
  if ¬ inputs.all (fun i => decide (i ∈ spec_names)) then .error .unrecognised_inputs
  else if inputs.any (fun i => decide (i ∈ iterfields)) then .error .iterfield_clash
  else if ¬ outputs.all (fun o => decide (o ∈ spec_names)) then .error .unrecognised_outputs
  else if inputs.dedup.length ≠ inputs.length then .error .duplicate_inputs
  else if outputs.dedup.length ≠ outputs.length then .error .duplicate_outputs
  else .ok
    { input_names := inputs
      output_names := outputs
      unconnected_inputs := inputs.dedup
      unconnected_outputs := outputs.dedup
      options := merge_options default_options options
      default_options := default_options }

/-! ### Connection bookkeeping (`connect_input`, `connect_output`,
`assert_connected`) -/

/-- `Pipeline.connect_input`: asserts that the name is a declared input
and removes it from the unconnected set when still present. -/
def connect_input (st : PState) (spec_name : String) : Option PState :=
  if spec_name ∈ st.input_names then
    some { st with
      unconnected_inputs :=
        if spec_name ∈ st.unconnected_inputs then
          st.unconnected_inputs.filter (fun n => decide (n ≠ spec_name))
        else st.unconnected_inputs }
  else none

/-- `Pipeline.connect_output`: asserts that the name is a declared output
and still unconnected, then removes it from the unconnected set. -/
def connect_output (st : PState) (spec_name : String) : Option PState :=
  if spec_name ∈ st.output_names then
    if spec_name ∈ st.unconnected_outputs then
      some { st with
        unconnected_outputs :=
          st.unconnected_outputs.filter (fun n => decide (n ≠ spec_name)) }
    else none
  else none

/-- Fold `connect_input` over a list of names. -/
def connect_inputs (st : PState) : List String → Option PState
  | [] => some st
  | x :: xs =>
    match connect_input st x with
    | some st' => connect_inputs st' xs
    | none => none

/-- Fold `connect_output` over a list of names. -/
def connect_outputs (st : PState) : List String → Option PState
  | [] => some st
  | x :: xs =>
    match connect_output st x with
    | some st' => connect_outputs st' xs
    | none => none

/-- `Pipeline.assert_connected`: validation succeeds exactly when both
unconnected sets are empty. -/
def assert_connected (st : PState) : Bool :=
  st.unconnected_inputs.isEmpty && st.unconnected_outputs.isEmpty

/-! ### Concrete archive snapshots used as example inputs -/

/-- Subject `A`, visit `1`; the visit-level artifact `v_agg` was written
for visit `1`, which the archive records in the session entry. -/
def sA1 : Session := ⟨"A", "1", ["v_agg"]⟩

/-- Subject `A`, visit `2`; `v_agg` absent. -/
def sA2 : Session := ⟨"A", "2", []⟩

/-- Subject `B`, visit `1`, `v_agg` present. -/
def sB1 : Session := ⟨"B", "1", ["v_agg"]⟩

/-- Subject `B`, visit `2`, `v_agg` absent. -/
def sB2 : Session := ⟨"B", "2", []⟩

/-- Two subjects, two visits each; the visit-level artifact `v_agg` is
present for visit `1` of both subjects and absent for visit `2`.  The
subject-level archived sets do not list the visit-level artifact. -/
def projC2 : Project := ⟨[⟨"A", [sA1, sA2], []⟩, ⟨"B", [sB1, sB2], []⟩], []⟩

/-- The desired visit-level output, suffixed name `v_agg`. -/
def vAgg : Dataset := ⟨"v_agg", .per_visit⟩

/-- Work set of two subjects with identical visit-id sets. -/
def exIdentical : List Session :=
  [⟨"A", "1", []⟩, ⟨"A", "2", []⟩, ⟨"B", "1", []⟩, ⟨"B", "2", []⟩]

/-- Work set of two subjects with disjoint visit-id sets. -/
def exDisjoint : List Session := [⟨"A", "1", []⟩, ⟨"B", "2", []⟩]

/-- One-subject, one-session project with an empty archive, used to
produce non-empty work sets in witnesses. -/
def projW : Project := ⟨[⟨"A", [⟨"A", "1", []⟩], []⟩], []⟩

/-- A session-level output absent from `projW`. -/
def dSess : Dataset := ⟨"o", .per_session⟩

/-- A session-level output present in every session of `projW2`. -/
def dDone : Dataset := ⟨"done", .per_session⟩

/-- One-subject, one-session project whose session already holds the
artifact `done`. -/
def projW2 : Project := ⟨[⟨"A", [⟨"A", "1", ["done"]⟩], []⟩], []⟩

/-! ## Theorems -/

/-- If some desired output is a missing project-level artifact, the
selector loop returns every session of the project, whatever was
accumulated so far. -/
theorem loop_missing_project (project : Project) (visit_ids : Option (List String)) :
    ∀ (outputs : List Dataset) (acc : List Session),
      (∃ d ∈ outputs, d.multiplicity = .per_project ∧
        d.prefixed_name ∉ project.dataset_names) →
      sessions_to_process_loop project visit_ids outputs acc = project.all_sessions := by
  intro outputs
  induction outputs with
  | nil =>
    rintro acc ⟨d, hd, -⟩
    simp at hd
  | cons d rest ih =>
    rintro acc ⟨e, he, hmult, hmiss⟩
    rcases List.mem_cons.mp he with heq | hrest
    · subst heq
      simp only [sessions_to_process_loop]
      rw [if_pos hmult, if_neg hmiss]
    · simp only [sessions_to_process_loop]
      split
      · split
        · exact ih _ ⟨e, hrest, hmult, hmiss⟩
        · rfl
      · split
        · exact ih _ ⟨e, hrest, hmult, hmiss⟩
        · exact ih _ ⟨e, hrest, hmult, hmiss⟩

/-- Claim C1: with `reprocess = false`, a desired-output set containing a
project-level artifact whose suffixed name is absent from the
project-level archived set makes `_sessions_to_process` return every
session of every subject in the project, for any visit filter. -/
theorem claim1_missing_project_output_selects_all
    (outputs : List Dataset) (project : Project) (visit_ids : Option (List String))
    (h : ∃ d ∈ outputs, d.multiplicity = .per_project ∧
      d.prefixed_name ∉ project.dataset_names) :
    sessions_to_process outputs project visit_ids false = project.all_sessions :=
  loop_missing_project project visit_ids outputs [] h

/-- Witness for claim C1 at a concrete snapshot, with a visit filter that
matches no session. -/
theorem claim1_witness :
    (∃ d ∈ [Dataset.mk "agg" .per_project],
       d.multiplicity = .per_project ∧
       d.prefixed_name ∉ (Project.mk [⟨"A", [⟨"A", "1", []⟩], []⟩] []).dataset_names) ∧
    sessions_to_process [Dataset.mk "agg" .per_project]
        (Project.mk [⟨"A", [⟨"A", "1", []⟩], []⟩] []) (some ["zzz"]) false =
      (Project.mk [⟨"A", [⟨"A", "1", []⟩], []⟩] []).all_sessions :=
  ⟨by decide,
    claim1_missing_project_output_selects_all _ _ _ (by decide)⟩

/-- Claim C2, behaviour of the code at the failing input: for a desired
visit-level output present for visit `1` of every subject and absent for
visit `2`, with no visit filter, `_sessions_to_process` tests the
subject-level archived sets (the `per_visit` branch is the `per_subject`
branch) and returns all four sessions, not only the visit-`2` sessions:
the visit-`1` session `sA1` is in the result. -/
theorem claim2_per_visit_checks_subject_sets :
    sessions_to_process [vAgg] projC2 none false = [sA1, sA2, sB1, sB2] ∧
    sA1 ∈ sessions_to_process [vAgg] projC2 none false ∧ sA1.id = "1" := by
  refine ⟨by decide, ?_, by decide⟩
  decide

/-- Claim C3: the visit axis is bound flat exactly when every selected
visit id is shared by the full set of selected subject ids; two subjects
with identical visit-id sets get the flat binding, two subjects with
disjoint visit-id sets get the sourced binding. -/
theorem claim3_visit_axis_uniform_iff :
    (∀ sessions : List Session, sessions ≠ [] →
      ((∃ vs, subject_and_session_iterators sessions = .flat vs) ↔
        ∀ v ∈ visit_ids_of sessions, ∀ sid,
          sid ∈ session_subjects sessions v ↔ sid ∈ subject_ids_to_process sessions)) ∧
    subject_and_session_iterators exIdentical = .flat ["1", "2"] ∧
    subject_and_session_iterators exDisjoint =
      .sourced [("A", ["1"]), ("B", ["2"])] := by
  refine ⟨?_, by decide, by decide⟩
  intro sessions _
  unfold subject_and_session_iterators
  split
  next hc =>
    constructor
    · intro _ v hv sid
      have hv' := List.all_eq_true.mp hc v hv
      rw [eqSet, Bool.and_eq_true, decide_eq_true_eq, decide_eq_true_eq] at hv'
      exact ⟨fun h => hv'.1 sid h, fun h => hv'.2 sid h⟩
    · intro _
      exact ⟨visit_ids_of sessions, rfl⟩
  next hc =>
    constructor
    · rintro ⟨vs, hvs⟩
      exact VisitIterables.noConfusion hvs
    · intro hall
      exact absurd
        (List.all_eq_true.mpr (fun v hv => by
          rw [eqSet, Bool.and_eq_true, decide_eq_true_eq, decide_eq_true_eq]
          exact ⟨fun x hx => (hall v hv x).mp hx, fun y hy => (hall v hv y).mpr hy⟩))
        hc

/-- Witness for claim C3: the uniformity characterisation instantiated at
the identical-visit-sets work set. -/
theorem claim3_witness :
    exIdentical ≠ [] ∧
    (∀ v ∈ visit_ids_of exIdentical, ∀ sid,
       sid ∈ session_subjects exIdentical v ↔ sid ∈ subject_ids_to_process exIdentical) :=
  ⟨by decide,
    (claim3_visit_axis_uniform_iff.1 exIdentical (by decide)).mp
      ⟨["1", "2"], claim3_visit_axis_uniform_iff.2.1⟩⟩

/-! ### Stepping lemmas for `connect` and `connect_prereqs` -/

/-- An empty work set short-circuits `connect_to_archive` before any state
change. -/
theorem connect_skip (project : Project) (visit_ids : Option (List String))
    (r : Reproc) (pid : PipeId) (outs : List Dataset) (prereqs : List Pline)
    (st : RunState)
    (h : sessions_to_process outs project visit_ids r.toBool = []) :
    connect project visit_ids r (.mk pid outs prereqs) st = .ok (none, st) := by
  simp [connect, h]

/-- A non-empty work set runs the step: the workflow is extended, the
prerequisite loop runs, and a fresh report token is returned. -/
theorem connect_run (project : Project) (visit_ids : Option (List String))
    (r : Reproc) (pid : PipeId) (outs : List Dataset) (prereqs : List Pline)
    (st st2 : RunState) (reports : List Nat)
    (h : sessions_to_process outs project visit_ids r.toBool ≠ [])
    (hpre : connect_prereqs project visit_ids r prereqs
        { st with workflow := st.workflow ++ [pid.name] } = .ok (reports, st2)) :
    connect project visit_ids r (.mk pid outs prereqs) st =
      .ok (some st2.next_token,
        { st2 with
          next_token := st2.next_token + 1,
          dep_reports := st2.dep_reports ++ [(pid.name, reports)] }) := by
  simp [connect, h, hpre]

/-- An error in the prerequisite loop propagates out of `connect`. -/
theorem connect_run_error (project : Project) (visit_ids : Option (List String))
    (r : Reproc) (pid : PipeId) (outs : List Dataset) (prereqs : List Pline)
    (st : RunState) (e : RunError)
    (h : sessions_to_process outs project visit_ids r.toBool ≠ [])
    (hpre : connect_prereqs project visit_ids r prereqs
        { st with workflow := st.workflow ++ [pid.name] } = .error e) :
    connect project visit_ids r (.mk pid outs prereqs) st = .error e := by
  simp [connect, h, hpre]

/-- A step with no prerequisites returns a fresh token and an empty
dependency list. -/
theorem connect_leaf (project : Project) (visit_ids : Option (List String))
    (r : Reproc) (pid : PipeId) (outs : List Dataset) (st : RunState)
    (h : sessions_to_process outs project visit_ids r.toBool ≠ []) :
    connect project visit_ids r (.mk pid outs []) st =
      .ok (some st.next_token,
        { st with
          workflow := st.workflow ++ [pid.name],
          next_token := st.next_token + 1,
          dep_reports := st.dep_reports ++ [(pid.name, [])] }) := by
  simpa using connect_run project visit_ids r pid outs [] st _ [] h rfl

/-- A cache hit on an identity-equal pipeline reuses the cached token. -/
theorem connect_prereqs_hit (project : Project) (visit_ids : Option (List String))
    (r : Reproc) (q : Pline) (rest : List Pline) (st st' : RunState)
    (tok : Nat) (more : List Nat)
    (h : cacheLookup st.cache q.name = some (q.pid, tok))
    (hrest : connect_prereqs project visit_ids r rest st = .ok (more, st')) :
    connect_prereqs project visit_ids r (q :: rest) st = .ok (tok :: more, st') := by
  simp [connect_prereqs, h, hrest]

/-- A cache hit on a pipeline that is not identity-equal to the cached one
raises the fatal name-clash error. -/
theorem connect_prereqs_hit_clash (project : Project)
    (visit_ids : Option (List String)) (r : Reproc) (q : Pline)
    (rest : List Pline) (st : RunState) (cached : PipeId) (tok : Nat)
    (h : cacheLookup st.cache q.name = some (cached, tok))
    (hne : cached ≠ q.pid) :
    connect_prereqs project visit_ids r (q :: rest) st =
      .error (.prereq_name_clash cached q.pid) := by
  simp [connect_prereqs, h, hne]

/-- A cache miss connects the prerequisite recursively; when it yields a
token, the pair is stored in the cache and the token collected. -/
theorem connect_prereqs_miss_some (project : Project)
    (visit_ids : Option (List String)) (r : Reproc) (q : Pline)
    (rest : List Pline) (st st' st3 : RunState) (tok : Nat) (more : List Nat)
    (h : cacheLookup st.cache q.name = none)
    (hq : connect project visit_ids (propagate_reprocess r) q st = .ok (some tok, st'))
    (hrest : connect_prereqs project visit_ids r rest
        { st' with cache := cacheStore st'.cache q.name (q.pid, tok) } =
        .ok (more, st3)) :
    connect_prereqs project visit_ids r (q :: rest) st = .ok (tok :: more, st3) := by
  simp [connect_prereqs, h, hq, hrest]

/-- A cache miss whose recursive connect was skipped contributes neither a
token nor a cache entry. -/
theorem connect_prereqs_miss_none (project : Project)
    (visit_ids : Option (List String)) (r : Reproc) (q : Pline)
    (rest : List Pline) (st st' : RunState)
    (h : cacheLookup st.cache q.name = none)
    (hq : connect project visit_ids (propagate_reprocess r) q st = .ok (none, st')) :
    connect_prereqs project visit_ids r (q :: rest) st =
      connect_prereqs project visit_ids r rest st' := by
  simp [connect_prereqs, h, hq]

/-- An error from a recursively connected prerequisite propagates. -/
theorem connect_prereqs_miss_error (project : Project)
    (visit_ids : Option (List String)) (r : Reproc) (q : Pline)
    (rest : List Pline) (st : RunState) (e : RunError)
    (h : cacheLookup st.cache q.name = none)
    (hq : connect project visit_ids (propagate_reprocess r) q st = .error e) :
    connect_prereqs project visit_ids r (q :: rest) st = .error e := by
  simp [connect_prereqs, h, hq]

/-- A cache miss whose recursive connect produced a token, followed by an
error later in the loop, propagates the error. -/
theorem connect_prereqs_miss_some_error (project : Project)
    (visit_ids : Option (List String)) (r : Reproc) (q : Pline)
    (rest : List Pline) (st st' : RunState) (tok : Nat) (e : RunError)
    (h : cacheLookup st.cache q.name = none)
    (hq : connect project visit_ids (propagate_reprocess r) q st = .ok (some tok, st'))
    (hrest : connect_prereqs project visit_ids r rest
        { st' with cache := cacheStore st'.cache q.name (q.pid, tok) } = .error e) :
    connect_prereqs project visit_ids r (q :: rest) st = .error e := by
  simp [connect_prereqs, h, hq, hrest]

/-- Claim C6: the recursive call connects a prerequisite with flag `all`
exactly when the parent flag is `all`, and with `False` otherwise; a plain
`True` is never propagated. -/
theorem claim6_reprocess_propagation :
    ∀ r : Reproc,
      (propagate_reprocess r = .all ↔ r = .all) ∧
      (r ≠ .all → propagate_reprocess r = .no) := by
  intro r
  cases r <;> simp [propagate_reprocess]

/-- Witness for claim C6 at the plain-`True` flag. -/
theorem claim6_witness :
    Reproc.yes ≠ Reproc.all ∧ propagate_reprocess .yes = .no :=
  ⟨by decide, (claim6_reprocess_propagation .yes).2 (by decide)⟩

/-- Claim C7: an empty work set makes `connect_to_archive` return no
token and leave the run state untouched, and a dependent whose
prerequisite was skipped gets an empty dependency list and an unchanged
cache. -/
theorem claim7_empty_workset_skip :
    (∀ (project : Project) (visit_ids : Option (List String)) (r : Reproc)
       (pid : PipeId) (outs : List Dataset) (prereqs : List Pline) (st : RunState),
       sessions_to_process outs project visit_ids r.toBool = [] →
       connect project visit_ids r (.mk pid outs prereqs) st = .ok (none, st)) ∧
    (∀ (project : Project) (visit_ids : Option (List String)) (pid : PipeId)
       (outs : List Dataset) (q : Pline) (st : RunState),
       sessions_to_process outs project visit_ids false ≠ [] →
       sessions_to_process q.out_datasets project visit_ids false = [] →
       cacheLookup st.cache q.name = none →
       connect project visit_ids .no (.mk pid outs [q]) st =
         .ok (some st.next_token,
           { st with
             workflow := st.workflow ++ [pid.name],
             next_token := st.next_token + 1,
             dep_reports := st.dep_reports ++ [(pid.name, [])] })) := by
  constructor
  · intro project visit_ids r pid outs prereqs st h
    exact connect_skip project visit_ids r pid outs prereqs st h
  · intro project visit_ids pid outs q st h1 h2 h3
    obtain ⟨qid, qouts, qpre⟩ := q
    have h2' : sessions_to_process qouts project visit_ids false = [] := h2
    have hq : connect project visit_ids (propagate_reprocess .no)
        (.mk qid qouts qpre) { st with workflow := st.workflow ++ [pid.name] } =
        .ok (none, { st with workflow := st.workflow ++ [pid.name] }) :=
      connect_skip _ _ _ _ _ _ _ h2'
    have hmiss : cacheLookup ({ st with workflow := st.workflow ++ [pid.name] } :
        RunState).cache (Pline.mk qid qouts qpre).name = none := h3
    have hpre : connect_prereqs project visit_ids .no [Pline.mk qid qouts qpre]
        { st with workflow := st.workflow ++ [pid.name] } =
        .ok ([], { st with workflow := st.workflow ++ [pid.name] }) := by
      rw [connect_prereqs_miss_none project visit_ids .no (.mk qid qouts qpre) []
        _ _ hmiss hq]
      rfl
    have hrun := connect_run project visit_ids .no pid outs
      [Pline.mk qid qouts qpre] st _ [] h1 hpre
    exact hrun

/-- Claim C4: when a top-level step has two dependents that both request
the same prerequisite (same identity, hence same name and options), the
prerequisite is connected exactly once, the run cache stores its
(identity, token) pair under its name on first construction, and both
dependents collect the same report token in their dependency lists. -/
theorem claim4_shared_prereq_single_connect
    (project : Project) (visit_ids : Option (List String))
    (idP idA idB idC : PipeId) (oP oA oB oC : List Dataset)
    (hP : sessions_to_process oP project visit_ids false ≠ [])
    (hA : sessions_to_process oA project visit_ids false ≠ [])
    (hB : sessions_to_process oB project visit_ids false ≠ [])
    (hC : sessions_to_process oC project visit_ids false ≠ [])
    (hAC : idA.name ≠ idC.name) (hBC : idB.name ≠ idC.name)
    (hBA : idB.name ≠ idA.name) (hPC : idP.name ≠ idC.name) :
    ∃ (stf : RunState) (tC tP : Nat),
      connect project visit_ids .no
          (.mk idP oP [.mk idA oA [.mk idC oC []], .mk idB oB [.mk idC oC []]])
          ⟨[], [], 0, []⟩ =
        .ok (some tP, stf) ∧
      stf.workflow.count idC.name = 1 ∧
      cacheLookup stf.cache idC.name = some (idC, tC) ∧
      (idA.name, [tC]) ∈ stf.dep_reports ∧
      (idB.name, [tC]) ∈ stf.dep_reports := by
  refine ⟨⟨[idP.name, idA.name, idC.name, idB.name],
    [(idC.name, (idC, 0)), (idA.name, (idA, 1)), (idB.name, (idB, 2))], 4,
    [(idC.name, []), (idA.name, [0]), (idB.name, [0]), (idP.name, [1, 2])]⟩,
    0, 3, ?_, ?_, ?_, ?_, ?_⟩
  · -- the full run of connect_to_archive on the top-level step
    have hCrun : connect project visit_ids (propagate_reprocess .no)
        (.mk idC oC []) ⟨[idP.name, idA.name], [], 0, []⟩ =
        .ok (some 0, ⟨[idP.name, idA.name, idC.name], [], 1, [(idC.name, [])]⟩) :=
      connect_leaf project visit_ids _ idC oC _ hC
    have hpreA : connect_prereqs project visit_ids .no [.mk idC oC []]
        ⟨[idP.name, idA.name], [], 0, []⟩ =
        .ok ([0], ⟨[idP.name, idA.name, idC.name], [(idC.name, (idC, 0))], 1,
          [(idC.name, [])]⟩) :=
      connect_prereqs_miss_some project visit_ids .no (.mk idC oC []) []
        _ _ _ 0 [] rfl hCrun rfl
    have hArun : connect project visit_ids (propagate_reprocess .no)
        (.mk idA oA [.mk idC oC []]) ⟨[idP.name], [], 0, []⟩ =
        .ok (some 1, ⟨[idP.name, idA.name, idC.name], [(idC.name, (idC, 0))], 2,
          [(idC.name, []), (idA.name, [0])]⟩) :=
      connect_run project visit_ids .no idA oA [.mk idC oC []]
        ⟨[idP.name], [], 0, []⟩ _ [0] hA hpreA
    have hstoreA : cacheStore [(idC.name, (idC, 0))] idA.name (idA, 1) =
        [(idC.name, (idC, 0)), (idA.name, (idA, 1))] := by
      simp [cacheStore, Ne.symm hAC]
    have hlookupC2 : cacheLookup
        [(idC.name, (idC, 0)), (idA.name, (idA, 1))] idC.name = some (idC, 0) := by
      simp [cacheLookup]
    have hpreB : connect_prereqs project visit_ids .no [.mk idC oC []]
        ⟨[idP.name, idA.name, idC.name, idB.name],
          [(idC.name, (idC, 0)), (idA.name, (idA, 1))], 2,
          [(idC.name, []), (idA.name, [0])]⟩ =
        .ok ([0], ⟨[idP.name, idA.name, idC.name, idB.name],
          [(idC.name, (idC, 0)), (idA.name, (idA, 1))], 2,
          [(idC.name, []), (idA.name, [0])]⟩) :=
      connect_prereqs_hit project visit_ids .no (.mk idC oC []) [] _ _ 0 []
        hlookupC2 rfl
    have hBrun : connect project visit_ids (propagate_reprocess .no)
        (.mk idB oB [.mk idC oC []])
        ⟨[idP.name, idA.name, idC.name],
          [(idC.name, (idC, 0)), (idA.name, (idA, 1))], 2,
          [(idC.name, []), (idA.name, [0])]⟩ =
        .ok (some 2, ⟨[idP.name, idA.name, idC.name, idB.name],
          [(idC.name, (idC, 0)), (idA.name, (idA, 1))], 3,
          [(idC.name, []), (idA.name, [0]), (idB.name, [0])]⟩) :=
      connect_run project visit_ids .no idB oB [.mk idC oC []]
        ⟨[idP.name, idA.name, idC.name],
          [(idC.name, (idC, 0)), (idA.name, (idA, 1))], 2,
          [(idC.name, []), (idA.name, [0])]⟩ _ [0] hB hpreB
    have hlookupB : cacheLookup
        [(idC.name, (idC, 0)), (idA.name, (idA, 1))] idB.name = none := by
      simp [cacheLookup, Ne.symm hBC, Ne.symm hBA]
    have hstoreB : cacheStore [(idC.name, (idC, 0)), (idA.name, (idA, 1))]
        idB.name (idB, 2) =
        [(idC.name, (idC, 0)), (idA.name, (idA, 1)), (idB.name, (idB, 2))] := by
      simp [cacheStore, Ne.symm hBC, Ne.symm hBA]
    have hpreTailB : connect_prereqs project visit_ids .no [.mk idB oB [.mk idC oC []]]
        ⟨[idP.name, idA.name, idC.name],
          [(idC.name, (idC, 0)), (idA.name, (idA, 1))], 2,
          [(idC.name, []), (idA.name, [0])]⟩ =
        .ok ([2], ⟨[idP.name, idA.name, idC.name, idB.name],
          [(idC.name, (idC, 0)), (idA.name, (idA, 1)), (idB.name, (idB, 2))], 3,
          [(idC.name, []), (idA.name, [0]), (idB.name, [0])]⟩) := by
      refine connect_prereqs_miss_some project visit_ids .no
        (.mk idB oB [.mk idC oC []]) [] _ _ _ 2 [] hlookupB hBrun ?_
      rw [show (Pline.mk idB oB [.mk idC oC []]).pid = idB from rfl]
      rw [show (Pline.mk idB oB [.mk idC oC []]).name = idB.name from rfl]
      rw [hstoreB]
      rfl
    have hpreP : connect_prereqs project visit_ids .no
        [.mk idA oA [.mk idC oC []], .mk idB oB [.mk idC oC []]]
        ⟨[idP.name], [], 0, []⟩ =
        .ok ([1, 2], ⟨[idP.name, idA.name, idC.name, idB.name],
          [(idC.name, (idC, 0)), (idA.name, (idA, 1)), (idB.name, (idB, 2))], 3,
          [(idC.name, []), (idA.name, [0]), (idB.name, [0])]⟩) := by
      refine connect_prereqs_miss_some project visit_ids .no
        (.mk idA oA [.mk idC oC []]) [.mk idB oB [.mk idC oC []]]
        _ _ _ 1 [2] rfl hArun ?_
      rw [show (Pline.mk idA oA [.mk idC oC []]).pid = idA from rfl]
      rw [show (Pline.mk idA oA [.mk idC oC []]).name = idA.name from rfl]
      rw [hstoreA]
      exact hpreTailB
    exact connect_run project visit_ids .no idP oP
      [.mk idA oA [.mk idC oC []], .mk idB oB [.mk idC oC []]]
      ⟨[], [], 0, []⟩ _ [1, 2] hP hpreP
  · simp [List.count_cons, Ne.symm hPC, Ne.symm hAC, Ne.symm hBC]
  · simp [cacheLookup]
  · simp
  · simp

/-- Witness for claim C4: two dependents `A` and `B` of a top-level step
`P` share the prerequisite `C`; all work sets are non-empty. -/
theorem claim4_witness :
    sessions_to_process [dSess] projW none false ≠ [] ∧
    (∃ (stf : RunState) (tC tP : Nat),
      connect projW none .no
          (.mk ⟨"P", "s", [], [], [], []⟩ [dSess]
            [.mk ⟨"A", "s", [], [], [], []⟩ [dSess]
              [.mk ⟨"C", "s", [], [], [], []⟩ [dSess] []],
             .mk ⟨"B", "s", [], [], [], []⟩ [dSess]
              [.mk ⟨"C", "s", [], [], [], []⟩ [dSess] []]])
          ⟨[], [], 0, []⟩ =
        .ok (some tP, stf) ∧
      stf.workflow.count "C" = 1 ∧
      cacheLookup stf.cache "C" = some (⟨"C", "s", [], [], [], []⟩, tC) ∧
      ("A", [tC]) ∈ stf.dep_reports ∧
      ("B", [tC]) ∈ stf.dep_reports) :=
  ⟨by decide,
    claim4_shared_prereq_single_connect projW none
      ⟨"P", "s", [], [], [], []⟩ ⟨"A", "s", [], [], [], []⟩
      ⟨"B", "s", [], [], [], []⟩ ⟨"C", "s", [], [], [], []⟩
      [dSess] [dSess] [dSess] [dSess]
      (by decide) (by decide) (by decide) (by decide)
      (by decide) (by decide) (by decide) (by decide)⟩

/-- Claim C5: a cache hit on a step name whose cached pipeline is not
identity-equal to the newly requested one is a fatal prerequisite
conflict; here dependent `A` requests `C` with one identity and dependent
`B` requests a same-named but different identity. -/
theorem claim5_prereq_conflict_raises
    (project : Project) (visit_ids : Option (List String))
    (idP idA idB idC1 idC2 : PipeId) (oP oA oB oC1 oC2 : List Dataset)
    (hP : sessions_to_process oP project visit_ids false ≠ [])
    (hA : sessions_to_process oA project visit_ids false ≠ [])
    (hB : sessions_to_process oB project visit_ids false ≠ [])
    (hC1 : sessions_to_process oC1 project visit_ids false ≠ [])
    (hname : idC1.name = idC2.name) (hne : idC1 ≠ idC2)
    (hAC : idA.name ≠ idC1.name) (hBC : idB.name ≠ idC1.name)
    (hBA : idB.name ≠ idA.name) :
    connect project visit_ids .no
        (.mk idP oP [.mk idA oA [.mk idC1 oC1 []], .mk idB oB [.mk idC2 oC2 []]])
        ⟨[], [], 0, []⟩ =
      .error (.prereq_name_clash idC1 idC2) := by
  have hCrun : connect project visit_ids (propagate_reprocess .no)
      (.mk idC1 oC1 []) ⟨[idP.name, idA.name], [], 0, []⟩ =
      .ok (some 0, ⟨[idP.name, idA.name, idC1.name], [], 1, [(idC1.name, [])]⟩) :=
    connect_leaf project visit_ids _ idC1 oC1 _ hC1
  have hpreA : connect_prereqs project visit_ids .no [.mk idC1 oC1 []]
      ⟨[idP.name, idA.name], [], 0, []⟩ =
      .ok ([0], ⟨[idP.name, idA.name, idC1.name], [(idC1.name, (idC1, 0))], 1,
        [(idC1.name, [])]⟩) :=
    connect_prereqs_miss_some project visit_ids .no (.mk idC1 oC1 []) []
      _ _ _ 0 [] rfl hCrun rfl
  have hArun : connect project visit_ids (propagate_reprocess .no)
      (.mk idA oA [.mk idC1 oC1 []]) ⟨[idP.name], [], 0, []⟩ =
      .ok (some 1, ⟨[idP.name, idA.name, idC1.name], [(idC1.name, (idC1, 0))], 2,
        [(idC1.name, []), (idA.name, [0])]⟩) :=
    connect_run project visit_ids .no idA oA [.mk idC1 oC1 []]
      ⟨[idP.name], [], 0, []⟩ _ [0] hA hpreA
  have hstoreA : cacheStore [(idC1.name, (idC1, 0))] idA.name (idA, 1) =
      [(idC1.name, (idC1, 0)), (idA.name, (idA, 1))] := by
    simp [cacheStore, Ne.symm hAC]
  have hlookupC2 : cacheLookup
      [(idC1.name, (idC1, 0)), (idA.name, (idA, 1))] idC2.name = some (idC1, 0) := by
    simp [cacheLookup, ← hname]
  have hclash : connect_prereqs project visit_ids .no [.mk idC2 oC2 []]
      ⟨[idP.name, idA.name, idC1.name, idB.name],
        [(idC1.name, (idC1, 0)), (idA.name, (idA, 1))], 2,
        [(idC1.name, []), (idA.name, [0])]⟩ =
      .error (.prereq_name_clash idC1 idC2) :=
    connect_prereqs_hit_clash project visit_ids .no (.mk idC2 oC2 []) []
      _ idC1 0 hlookupC2 hne
  have hBerr : connect project visit_ids (propagate_reprocess .no)
      (.mk idB oB [.mk idC2 oC2 []])
      ⟨[idP.name, idA.name, idC1.name],
        [(idC1.name, (idC1, 0)), (idA.name, (idA, 1))], 2,
        [(idC1.name, []), (idA.name, [0])]⟩ =
      .error (.prereq_name_clash idC1 idC2) :=
    connect_run_error project visit_ids .no idB oB [.mk idC2 oC2 []]
      ⟨[idP.name, idA.name, idC1.name],
        [(idC1.name, (idC1, 0)), (idA.name, (idA, 1))], 2,
        [(idC1.name, []), (idA.name, [0])]⟩ _ hB hclash
  have hlookupB : cacheLookup
      [(idC1.name, (idC1, 0)), (idA.name, (idA, 1))] idB.name = none := by
    simp [cacheLookup, Ne.symm hBC, Ne.symm hBA]
  have hloopB : connect_prereqs project visit_ids .no [.mk idB oB [.mk idC2 oC2 []]]
      ⟨[idP.name, idA.name, idC1.name],
        [(idC1.name, (idC1, 0)), (idA.name, (idA, 1))], 2,
        [(idC1.name, []), (idA.name, [0])]⟩ =
      .error (.prereq_name_clash idC1 idC2) :=
    connect_prereqs_miss_error project visit_ids .no (.mk idB oB [.mk idC2 oC2 []])
      [] _ _ hlookupB hBerr
  have hloopP : connect_prereqs project visit_ids .no
      [.mk idA oA [.mk idC1 oC1 []], .mk idB oB [.mk idC2 oC2 []]]
      ⟨[idP.name], [], 0, []⟩ = .error (.prereq_name_clash idC1 idC2) := by
    refine connect_prereqs_miss_some_error project visit_ids .no
      (.mk idA oA [.mk idC1 oC1 []]) [.mk idB oB [.mk idC2 oC2 []]]
      _ _ 1 _ rfl hArun ?_
    rw [show (Pline.mk idA oA [.mk idC1 oC1 []]).pid = idA from rfl]
    rw [show (Pline.mk idA oA [.mk idC1 oC1 []]).name = idA.name from rfl]
    rw [hstoreA]
    exact hloopB
  exact connect_run_error project visit_ids .no idP oP
    [.mk idA oA [.mk idC1 oC1 []], .mk idB oB [.mk idC2 oC2 []]]
    ⟨[], [], 0, []⟩ _ hP hloopP

/-- Witness for claim C5: the two same-named prerequisite identities
differ only in their option maps. -/
theorem claim5_witness :
    (PipeId.mk "C" "s" [] [] [("k", "1")] []).name =
      (PipeId.mk "C" "s" [] [] [("k", "2")] []).name ∧
    PipeId.mk "C" "s" [] [] [("k", "1")] [] ≠ PipeId.mk "C" "s" [] [] [("k", "2")] [] ∧
    connect projW none .no
        (.mk ⟨"P", "s", [], [], [], []⟩ [dSess]
          [.mk ⟨"A", "s", [], [], [], []⟩ [dSess]
            [.mk ⟨"C", "s", [], [], [("k", "1")], []⟩ [dSess] []],
           .mk ⟨"B", "s", [], [], [], []⟩ [dSess]
            [.mk ⟨"C", "s", [], [], [("k", "2")], []⟩ [dSess] []]])
        ⟨[], [], 0, []⟩ =
      .error (.prereq_name_clash ⟨"C", "s", [], [], [("k", "1")], []⟩
        ⟨"C", "s", [], [], [("k", "2")], []⟩) :=
  ⟨by decide, by decide,
    claim5_prereq_conflict_raises projW none
      ⟨"P", "s", [], [], [], []⟩ ⟨"A", "s", [], [], [], []⟩
      ⟨"B", "s", [], [], [], []⟩
      ⟨"C", "s", [], [], [("k", "1")], []⟩ ⟨"C", "s", [], [], [("k", "2")], []⟩
      [dSess] [dSess] [dSess] [dSess] [dSess]
      (by decide) (by decide) (by decide) (by decide)
      (by decide) (by decide) (by decide) (by decide) (by decide)⟩

/-- Witness for claim C7: a parent with a non-empty work set whose only
prerequisite is already up to date in `projW2`. -/
theorem claim7_witness :
    sessions_to_process [dDone] projW2 none Reproc.no.toBool = [] ∧
    connect projW2 none .no
        (.mk ⟨"Q", "s", [], [], [], []⟩ [dDone] []) ⟨[], [], 0, []⟩ =
      .ok (none, ⟨[], [], 0, []⟩) ∧
    sessions_to_process [dSess] projW2 none false ≠ [] ∧
    connect projW2 none .no
        (.mk ⟨"P", "s", [], [], [], []⟩ [dSess]
          [.mk ⟨"Q", "s", [], [], [], []⟩ [dDone] []]) ⟨[], [], 0, []⟩ =
      .ok (some 0, ⟨["P"], [], 1, [("P", [])]⟩) :=
  ⟨by decide,
    claim7_empty_workset_skip.1 projW2 none .no ⟨"Q", "s", [], [], [], []⟩
      [dDone] [] ⟨[], [], 0, []⟩ (by decide),
    by decide,
    claim7_empty_workset_skip.2 projW2 none ⟨"P", "s", [], [], [], []⟩
      [dSess] (.mk ⟨"Q", "s", [], [], [], []⟩ [dDone] []) ⟨[], [], 0, []⟩
      (by decide) (by decide) (by decide)⟩

/-! ### Connection round trip -/

/-- `connect_input` succeeds on any declared input name and removes it
from the unconnected set (removal of an absent name is a no-op, which the
filter form also expresses). -/
theorem connect_input_some (st : PState) (x : String) (h : x ∈ st.input_names) :
    connect_input st x = some
      { st with unconnected_inputs :=
          st.unconnected_inputs.filter (fun n => decide (n ≠ x)) } := by
  rw [connect_input, if_pos h]
  by_cases hx : x ∈ st.unconnected_inputs
  · rw [if_pos hx]
  · rw [if_neg hx]
    have : st.unconnected_inputs.filter (fun n => decide (n ≠ x)) =
        st.unconnected_inputs :=
      List.filter_eq_self.mpr (fun a ha => by
        simp only [decide_eq_true_eq]
        exact fun hax => hx (hax ▸ ha))
    rw [this]

/-- Folding `connect_input` over declared input names succeeds and filters
the processed names out of the unconnected-input set. -/
theorem connect_inputs_spec :
    ∀ (l : List String) (st : PState),
      (∀ x ∈ l, x ∈ st.input_names) →
      ∃ st', connect_inputs st l = some st' ∧
        st'.input_names = st.input_names ∧
        st'.output_names = st.output_names ∧
        st'.unconnected_outputs = st.unconnected_outputs ∧
        st'.unconnected_inputs =
          st.unconnected_inputs.filter (fun n => decide (n ∉ l)) := by
  intro l
  induction l with
  | nil =>
    intro st _
    exact ⟨st, rfl, rfl, rfl, rfl, by simp⟩
  | cons x xs ih =>
    intro st hmem
    have hx := hmem x (List.mem_cons_self x xs)
    have hstep := connect_input_some st x hx
    set st1 : PState :=
      { st with unconnected_inputs :=
          st.unconnected_inputs.filter (fun n => decide (n ≠ x)) } with hst1
    obtain ⟨st', hfold, hi, ho, huo, hui⟩ := ih st1
      (fun y hy => hmem y (List.mem_cons_of_mem x hy))
    refine ⟨st', ?_, hi, ho, huo, ?_⟩
    · rw [connect_inputs, hstep]
      exact hfold
    · rw [hui, hst1]
      simp only [List.filter_filter]
      refine List.filter_congr (fun a _ => ?_)
      by_cases h1 : a = x <;> by_cases h2 : a ∈ xs <;> simp [h1, h2]

/-- `connect_output` succeeds on a declared, still unconnected output
name and removes it from the unconnected set. -/
theorem connect_output_some (st : PState) (x : String)
    (h : x ∈ st.output_names) (hu : x ∈ st.unconnected_outputs) :
    connect_output st x = some
      { st with unconnected_outputs :=
          st.unconnected_outputs.filter (fun n => decide (n ≠ x)) } := by
  rw [connect_output, if_pos h, if_pos hu]

/-- Folding `connect_output` over duplicate-free declared output names
succeeds and filters the processed names out of the unconnected-output
set. -/
theorem connect_outputs_spec :
    ∀ (l : List String) (st : PState),
      l.Nodup →
      (∀ x ∈ l, x ∈ st.output_names) →
      (∀ x ∈ l, x ∈ st.unconnected_outputs) →
      ∃ st', connect_outputs st l = some st' ∧
        st'.unconnected_inputs = st.unconnected_inputs ∧
        st'.unconnected_outputs =
          st.unconnected_outputs.filter (fun n => decide (n ∉ l)) := by
  intro l
  induction l with
  | nil =>
    intro st _ _ _
    exact ⟨st, rfl, rfl, by simp⟩
  | cons x xs ih =>
    intro st hnd hmem humem
    have hx := hmem x (List.mem_cons_self x xs)
    have hux := humem x (List.mem_cons_self x xs)
    have hstep := connect_output_some st x hx hux
    set st1 : PState :=
      { st with unconnected_outputs :=
          st.unconnected_outputs.filter (fun n => decide (n ≠ x)) } with hst1
    have hnd' := (List.nodup_cons.mp hnd).2
    have hxnot := (List.nodup_cons.mp hnd).1
    obtain ⟨st', hfold, hui, huo⟩ := ih st1 hnd'
      (fun y hy => hmem y (List.mem_cons_of_mem x hy))
      (fun y hy => by
        rw [hst1]
        refine List.mem_filter.mpr ⟨humem y (List.mem_cons_of_mem x hy), ?_⟩
        simp only [decide_eq_true_eq]
        exact fun hyx => hxnot (hyx ▸ hy))
    refine ⟨st', ?_, hui, ?_⟩
    · rw [connect_outputs, hstep]
      exact hfold
    · rw [huo, hst1]
      simp only [List.filter_filter]
      refine List.filter_congr (fun a _ => ?_)
      by_cases h1 : a = x <;> by_cases h2 : a ∈ xs <;> simp [h1, h2]

/-- Unpacking a successful `pipeline_init`: the produced state and the
duplicate-freeness guaranteed by the assertions. -/
theorem pipeline_init_ok (spec_names inputs outputs : List String)
    (D O : List (String × String)) (st0 : PState)
    (h : pipeline_init spec_names inputs outputs D O = .ok st0) :
    st0.input_names = inputs ∧ st0.output_names = outputs ∧
    st0.unconnected_inputs = inputs.dedup ∧
    st0.unconnected_outputs = outputs.dedup ∧
    st0.options = merge_options D O ∧ st0.default_options = D ∧
    inputs.Nodup ∧ outputs.Nodup := by
  unfold pipeline_init at h
  split at h
  · exact absurd h (by simp)
  split at h
  · exact absurd h (by simp)
  split at h
  · exact absurd h (by simp)
  split at h
  · exact absurd h (by simp)
  split at h
  · exact absurd h (by simp)
  next hdupI hdupO =>
    have hI : inputs.dedup = inputs :=
      (List.dedup_sublist inputs).eq_of_length (not_ne_iff.mp hdupI)
    have hO : outputs.dedup = outputs :=
      (List.dedup_sublist outputs).eq_of_length (not_ne_iff.mp hdupO)
    cases h
    exact ⟨rfl, rfl, rfl, rfl, rfl, rfl,
      List.dedup_eq_self.mp hI, List.dedup_eq_self.mp hO⟩

/-- Claim C8: `assert_connected` fails exactly when some input or output
name is still unconnected, and wiring every declared input and output
name after construction always yields a state that validates. -/
theorem claim8_validation_iff_roundtrip :
    (∀ st : PState, assert_connected st = false ↔
      ((∃ n, n ∈ st.unconnected_inputs) ∨ (∃ n, n ∈ st.unconnected_outputs))) ∧
    (∀ (spec_names inputs outputs : List String) (D O : List (String × String))
       (st0 : PState),
      pipeline_init spec_names inputs outputs D O = .ok st0 →
      ∃ st1 st2, connect_inputs st0 inputs = some st1 ∧
        connect_outputs st1 outputs = some st2 ∧
        assert_connected st2 = true) := by
  constructor
  · intro st
    cases hi : st.unconnected_inputs <;> cases ho : st.unconnected_outputs <;>
      simp [assert_connected, hi, ho]
  · intro spec_names inputs outputs D O st0 h
    obtain ⟨hin, hout, hui, huo, -, -, hndI, hndO⟩ :=
      pipeline_init_ok spec_names inputs outputs D O st0 h
    obtain ⟨st1, hc1, hi1, ho1, huo1, hui1⟩ :=
      connect_inputs_spec inputs st0 (fun x hx => hin ▸ hx)
    have hempty1 : st1.unconnected_inputs = [] := by
      rw [hui1, hui]
      refine List.filter_eq_nil_iff.mpr (fun a ha => ?_)
      simp only [decide_eq_true_eq, Decidable.not_not]
      exact List.mem_dedup.mp ha
    obtain ⟨st2, hc2, hui2, huo2⟩ :=
      connect_outputs_spec outputs st1 hndO
        (fun x hx => by rw [ho1, hout]; exact hx)
        (fun x hx => by rw [huo1, huo]; exact List.mem_dedup.mpr hx)
    have hempty2 : st2.unconnected_outputs = [] := by
      rw [huo2, huo1, huo]
      refine List.filter_eq_nil_iff.mpr (fun a ha => ?_)
      simp only [decide_eq_true_eq, Decidable.not_not]
      exact List.mem_dedup.mp ha
    refine ⟨st1, st2, hc1, hc2, ?_⟩
    rw [assert_connected, hui2, hempty1, hempty2]
    rfl

/-- Witness for claim C8 at a concrete construction with one input and
one output. -/
theorem claim8_witness :
    pipeline_init ["raw", "brain"] ["raw"] ["brain"] [] [] =
      .ok ⟨["raw"], ["brain"], ["raw"], ["brain"], [], []⟩ ∧
    (∃ st1 st2,
      connect_inputs ⟨["raw"], ["brain"], ["raw"], ["brain"], [], []⟩ ["raw"] = some st1 ∧
      connect_outputs st1 ["brain"] = some st2 ∧
      assert_connected st2 = true) :=
  ⟨by rfl,
    claim8_validation_iff_roundtrip.2 ["raw", "brain"] ["raw"] ["brain"] [] []
      ⟨["raw"], ["brain"], ["raw"], ["brain"], [], []⟩ (by rfl)⟩

/-! ### Constructor validation and option-merge theorems -/

/-- Claim C9, counterexample: an output name equal to the reserved
iteration field `subject_id` (declared as a valid study spec name) does
not make construction fail — the iterable-field check of `__init__` is
applied to the inputs only. -/
theorem claim9_counterexample :
    "subject_id" ∈ iterfields ∧
    pipeline_init ["subject_id"] [] ["subject_id"] [] [] =
      .ok ⟨[], ["subject_id"], [], ["subject_id"], [], []⟩ :=
  ⟨by decide, by rfl⟩

/-- Claim C9 as amended: construction fails with an error whenever a
declared input name collides with one of the reserved iteration-field
names, or the declared input or output names contain duplicates.  Output
names are not checked against the reserved fields. -/
theorem claim9_amended (spec_names inputs outputs : List String)
    (D O : List (String × String))
    (h : (∃ i ∈ inputs, i ∈ iterfields) ∨ ¬ inputs.Nodup ∨ ¬ outputs.Nodup) :
    ∃ e, pipeline_init spec_names inputs outputs D O = .error e := by
  unfold pipeline_init
  split
  · exact ⟨_, rfl⟩
  split
  · exact ⟨_, rfl⟩
  split
  · exact ⟨_, rfl⟩
  split
  · exact ⟨_, rfl⟩
  split
  · exact ⟨_, rfl⟩
  rename_i hall hany hout hdupI hdupO
  exfalso
  rcases h with h | h | h
  · obtain ⟨i, hi, hf⟩ := h
    exact hany (List.any_eq_true.mpr ⟨i, hi, decide_eq_true hf⟩)
  · exact h (List.dedup_eq_self.mp
      ((List.dedup_sublist inputs).eq_of_length (not_ne_iff.mp hdupI)))
  · exact h (List.dedup_eq_self.mp
      ((List.dedup_sublist outputs).eq_of_length (not_ne_iff.mp hdupO)))

/-- Witness for the amended claim C9: an input named `subject_id`. -/
theorem claim9_witness :
    ((∃ i ∈ ["subject_id"], i ∈ iterfields) ∨
      ¬ (["subject_id"] : List String).Nodup ∨ ¬ ([] : List String).Nodup) ∧
    (∃ e, pipeline_init ["subject_id"] ["subject_id"] [] [] [] = .error e) :=
  ⟨by decide, claim9_amended ["subject_id"] ["subject_id"] [] [] [] (by decide)⟩

/-- `updateVal` does not change the key list. -/
theorem updateVal_map_fst (m : List (String × String)) (k v : String) :
    (updateVal m k v).map Prod.fst = m.map Prod.fst := by
  induction m with
  | nil => rfl
  | cons e es ih =>
    simp only [updateVal, List.map_cons] at ih ⊢
    by_cases h : e.1 = k
    · rw [if_pos h, ih, h]
    · rw [if_neg h, ih]

/-- The merged option map has exactly the keys of the default map. -/
theorem merge_options_map_fst (O D : List (String × String)) :
    (merge_options D O).map Prod.fst = D.map Prod.fst := by
  induction O generalizing D with
  | nil => rfl
  | cons kv O' ih =>
    have hstep : merge_options D (kv :: O') =
        merge_options
          (if (D.map Prod.fst).contains kv.1 then updateVal D kv.1 kv.2 else D)
          O' := rfl
    rw [hstep, ih]
    split
    · exact updateVal_map_fst D kv.1 kv.2
    · rfl

/-- Unfolding lemma: lookup in a cons cell. -/
theorem lookupKey_cons (p : String × String) (m : List (String × String))
    (j : String) :
    lookupKey (p :: m) j = if p.1 = j then some p.2 else lookupKey m j := by
  obtain ⟨a, b⟩ := p
  rfl

/-- Unfolding lemma: `updateVal` on a cons cell. -/
theorem updateVal_cons (e : String × String) (es : List (String × String))
    (k v : String) :
    updateVal (e :: es) k v =
      (if e.1 = k then (k, v) else e) :: updateVal es k v := rfl

/-- Lookup in an updated map: the value under `k` is replaced when `k`
was present, and nothing else changes. -/
theorem lookupKey_updateVal (m : List (String × String)) (k v : String) :
    ∀ j, lookupKey (updateVal m k v) j =
      if j = k then
        (match lookupKey m k with
         | some _ => some v
         | none => none)
      else lookupKey m j := by
  induction m with
  | nil =>
    intro j
    by_cases hjk : j = k <;> simp [updateVal, lookupKey, hjk]
  | cons e es ih =>
    intro j
    by_cases hek : e.1 = k
    · by_cases hjk : j = k
      · subst hjk
        simp [updateVal_cons, lookupKey_cons, hek, ih]
      · simp [updateVal_cons, lookupKey_cons, hek, hjk, Ne.symm hjk, ih]
    · by_cases hjk : j = k
      · subst hjk
        simp [updateVal_cons, lookupKey_cons, hek, ih]
      · simp [updateVal_cons, lookupKey_cons, hek, hjk, ih]

/-- A key outside the key list looks up to `none`. -/
theorem lookupKey_eq_none (m : List (String × String)) (k : String)
    (h : k ∉ m.map Prod.fst) : lookupKey m k = none := by
  induction m with
  | nil => rfl
  | cons e es ih =>
    simp only [List.map_cons, List.mem_cons] at h
    push_neg at h
    rw [lookupKey, if_neg (fun hc => h.1 hc.symm)]
    exact ih h.2

/-- A key of the key list looks up to some value. -/
theorem lookupKey_isSome (m : List (String × String)) (k : String)
    (h : k ∈ m.map Prod.fst) : ∃ v, lookupKey m k = some v := by
  induction m with
  | nil => simp at h
  | cons e es ih =>
    by_cases he : e.1 = k
    · exact ⟨e.2, by rw [lookupKey, if_pos he]⟩
    · rw [lookupKey, if_neg he]
      refine ih ?_
      simp only [List.map_cons, List.mem_cons] at h
      rcases h with h | h
      · exact absurd h.symm he
      · exact h

/-- Claim C10: the merged option map has exactly the keys of the default
map, each key taking the override value when the key is present in the
overrides and the default value otherwise; other override keys are
ignored, and the constructor stores the unchanged default map alongside
the merged map. -/
theorem claim10_options_merge :
    (∀ (D O : List (String × String)),
      (merge_options D O).map Prod.fst = D.map Prod.fst) ∧
    (∀ (D O : List (String × String)), (O.map Prod.fst).Nodup →
      ∀ k, lookupKey (merge_options D O) k =
        match lookupKey D k with
        | none => none
        | some v =>
          match lookupKey O k with
          | some w => some w
          | none => some v) ∧
    (∀ (spec_names inputs outputs : List String)
       (D O : List (String × String)) (st : PState),
      pipeline_init spec_names inputs outputs D O = .ok st →
      st.options = merge_options D O ∧ st.default_options = D) := by
  refine ⟨fun D O => merge_options_map_fst O D, ?_, ?_⟩
  · intro D O
    induction O generalizing D with
    | nil =>
      intro _ k
      cases h : lookupKey D k <;> simp [merge_options, lookupKey, h]
    | cons kv O' ih =>
      obtain ⟨k0, v0⟩ := kv
      intro hO k
      simp only [List.map_cons] at hO
      have hO' : (O'.map Prod.fst).Nodup := (List.nodup_cons.mp hO).2
      have hk0 : k0 ∉ O'.map Prod.fst := (List.nodup_cons.mp hO).1
      have hstep : merge_options D ((k0, v0) :: O') =
          merge_options
            (if (D.map Prod.fst).contains k0 then updateVal D k0 v0 else D)
            O' := rfl
      rw [hstep, ih _ hO' k]
      by_cases hkk : k = k0
      · subst hkk
        have hO'none : lookupKey O' k = none := lookupKey_eq_none O' k hk0
        have hhead : lookupKey ((k, v0) :: O') k = some v0 := by
          rw [lookupKey_cons, if_pos rfl]
        by_cases hc : k ∈ D.map Prod.fst
        · have hcont : (D.map Prod.fst).contains k = true := by simpa using hc
          obtain ⟨v1, hv1⟩ := lookupKey_isSome D k hc
          rw [if_pos hcont, lookupKey_updateVal D k v0 k, if_pos rfl, hv1,
            hO'none, hhead]
        · have hcont : ¬ (D.map Prod.fst).contains k = true := by simpa using hc
          have hDnone : lookupKey D k = none := lookupKey_eq_none D k hc
          rw [if_neg hcont, hDnone]
      · have htail : lookupKey ((k0, v0) :: O') k = lookupKey O' k := by
          rw [lookupKey_cons, if_neg (fun hc => hkk hc.symm)]
        rw [htail]
        by_cases hc : (D.map Prod.fst).contains k0 = true
        · rw [if_pos hc, lookupKey_updateVal D k0 v0 k, if_neg hkk]
        · rw [if_neg hc]
  · intro spec_names inputs outputs D O st h
    obtain ⟨-, -, -, -, hopt, hdef, -, -⟩ :=
      pipeline_init_ok spec_names inputs outputs D O st h
    exact ⟨hopt, hdef⟩

/-- Witness for claim C10 at concrete maps: the override wins on the
shared key `b`, and the override-only key `c` stays absent. -/
theorem claim10_witness :
    ((([("b", "9"), ("c", "7")] : List (String × String)).map Prod.fst).Nodup) ∧
    lookupKey (merge_options [("a", "1"), ("b", "2")] [("b", "9"), ("c", "7")]) "b" =
      some "9" ∧
    lookupKey (merge_options [("a", "1"), ("b", "2")] [("b", "9"), ("c", "7")]) "c" =
      none :=
  ⟨by decide,
    by
      rw [claim10_options_merge.2.1 [("a", "1"), ("b", "2")] [("b", "9"), ("c", "7")]
        (by decide) "b"]
      rfl,
    by
      rw [claim10_options_merge.2.1 [("a", "1"), ("b", "2")] [("b", "9"), ("c", "7")]
        (by decide) "c"]
      rfl⟩

end NIAnalysis
